import Mathlib

/-!
Verification of the distributed-systems core (Lamport mutex over a causal
layer, event substrate, TCP control, entropy store) against its
natural-language specification.  The definitions below are shallow
embeddings of the Rust source: each pure state-manipulating handler is
translated into an executable Lean function over an explicit state type,
fallible handlers return `Except String`, and observable effects
(network sends, upcalls, warnings) are collected into output lists.
-/

/-- The clock capability of `lamport_mutex.rs`: the happens-before
relation as Rust's `PartialOrd::partial_cmp` (field `pcmp`, `none` for
incomparable clocks) plus the tie-breaking total order
`Clock::arbitrary_cmp` (field `acmp`). -/
structure ClockOps (C : Type) where
  pcmp : C → C → Option Ordering
  acmp : C → C → Ordering

/-- `matches!(a.partial_cmp(b), Some(Greater | Equal))`: the "greater or
equal in the partial order" test used throughout the mutex module. -/
def clock_ge (ops : ClockOps C) (a b : C) : Bool :=
  match ops.pcmp a b with
  | some Ordering.gt => true
  | some Ordering.eq => true
  | _ => false

/-- Lexicographic comparison of `(counter, processor id)` pairs: the
derived `Ord` of the Rust tuple type `LamportClock = (u32, u8)`. -/
def lamport_cmp (a b : Nat × Nat) : Ordering :=
  match compare a.1 b.1 with
  | Ordering.eq => compare a.2 b.2
  | o => o

/-- The default concrete clock: a Lamport clock, whose partial order is
already total (the blanket `impl Clock for C: Ord`). -/
def lamportOps : ClockOps (Nat × Nat) where
  pcmp := fun a b => some (lamport_cmp a b)
  acmp := lamport_cmp

/-- Componentwise (product) order on pairs: a genuinely partial clock in
which `(0, 1)` and `(1, 0)` are incomparable, as allowed by the `Clock`
trait (any `PartialOrd` with an aligned total tie-breaker). -/
def prod_pcmp (a b : Nat × Nat) : Option Ordering :=
  if a.1 = b.1 ∧ a.2 = b.2 then some Ordering.eq
  else if a.1 ≤ b.1 ∧ a.2 ≤ b.2 then some Ordering.lt
  else if b.1 ≤ a.1 ∧ b.2 ≤ a.2 then some Ordering.gt
  else none

/-- A partially ordered clock instance: product partial order with the
lexicographic order as aligned total tie-breaker. -/
def prodOps : ClockOps (Nat × Nat) where
  pcmp := prod_pcmp
  acmp := lamport_cmp

/-- `Clocked<M, C>`: a message together with the clock stamped on it. -/
structure Clocked (C M : Type) where
  clock : C
  inner : M
deriving Repr, DecidableEq

/-- The mutex wire messages `Message::{Request, RequestOk, Release}`,
each carrying the sender's processor id. -/
inductive Message : Type
  | request (id : Nat)
  | requestOk (id : Nat)
  | release (id : Nat)
deriving Repr, DecidableEq

/-- The processor id carried by a mutex message. -/
def msgId : Message → Nat
  | Message.request i => i
  | Message.requestOk i => i
  | Message.release i => i

/-- Destinations used by the mutex processor: `All` broadcast or a
single processor id (`u8`). -/
inductive MAddr : Type
  | all
  | node (id : Nat)
deriving Repr, DecidableEq

/-- State of the plain Lamport mutex `Processor`. -/
structure Processor (C : Type) where
  id : Nat
  latests : List C
  requests : List (C × Nat)
  requesting : Bool
deriving Repr, DecidableEq

/-- Core loop of Rust `slice::binary_search_by` (fuelled; the fuel is
always sufficient at `length + 1`).  Returns `inl mid` when the
comparator answers `eq` at `mid` and `inr left` (the insertion point)
when the range empties. -/
def binary_search_go (f : α → Ordering) (xs : List α) :
    Nat → Nat → Nat → Sum Nat Nat
  | 0, left, _ => Sum.inr left
  | fuel + 1, left, right =>
    if left < right then
      let mid := left + (right - left) / 2
      match xs[mid]? with
      | none => Sum.inr left
      | some a =>
        match f a with
        | Ordering.lt => binary_search_go f xs fuel (mid + 1) right
        | Ordering.gt => binary_search_go f xs fuel left mid
        | Ordering.eq => Sum.inl mid
    else Sum.inr left

/-- Rust `slice::binary_search_by`: `inl` plays `Ok`, `inr` plays `Err`. -/
def binary_search_by (f : α → Ordering) (xs : List α) : Sum Nat Nat :=
  binary_search_go f xs (xs.length + 1) 0 xs.length

/-- `Vec::insert(index, element)`. -/
def list_insert_at (xs : List α) (n : Nat) (a : α) : List α :=
  xs.take n ++ a :: xs.drop n

/-- The per-kind body of `Processor::handle_clocked`, run after the
out-of-order guard has passed and `latests[id]` has been updated:
Request inserts into `requests` at the binary-search position (skipping
duplicates) and replies `RequestOk`; RequestOk does nothing; Release
removes the oldest entry of the sender and checks its clock. -/
def handle_kind (ops : ClockOps C) (intoAddr : Nat → MAddr) (s : Processor C)
    (message : Clocked C Message) :
    Except String (Processor C × List (MAddr × Message) × List String) :=
  let id := msgId message.inner
  match message.inner with
  | Message.request _ =>
    let s2 :=
      match binary_search_by (fun p => ops.acmp p.1 message.clock) s.requests with
      | Sum.inl _ => s
      | Sum.inr index =>
        { s with requests := list_insert_at s.requests index (message.clock, id) }
    Except.ok (s2, [(intoAddr id, Message.requestOk s2.id)], [])
  | Message.requestOk _ => Except.ok (s, [], [])
  | Message.release _ =>
    match s.requests.findIdx? (fun p => p.2 == id) with
    | none => Except.ok (s, [], [])
    | some index =>
      match s.requests[index]? with
      | none => Except.error "panic: removed index out of range"
      | some entry =>
        let s2 := { s with requests := s.requests.eraseIdx index }
        if ops.acmp message.clock entry.1 == Ordering.gt then Except.ok (s2, [], [])
        else Except.error "release clock not greater than removed request clock"

/-- `Processor::handle_clocked`: drop (with a warning) any message whose
clock is not `Greater | Equal` to `latests[id]`, otherwise update
`latests[id]` and process the message kind. -/
def handle_clocked (ops : ClockOps C) (intoAddr : Nat → MAddr) (s : Processor C)
    (message : Clocked C Message) :
    Except String (Processor C × List (MAddr × Message) × List String) :=
  let id := msgId message.inner
  match s.latests[id]? with
  | none => Except.error "panic: latests index out of bounds"
  | some latest =>
    if clock_ge ops message.clock latest then
      handle_kind ops intoAddr { s with latests := s.latests.set id message.clock } message
    else Except.ok (s, [], ["out of order clock received"])

/-- `Processor::check_requested`: if the head of `requests` is our own
entry and every `latests[j]` is `≥` its clock in the partial order,
clear `requesting` (asserting it was set) and emit the `RequestOk`
upcall. -/
def check_requested (ops : ClockOps C) (s : Processor C) :
    Except String (Processor C × List Unit) :=
  match s.requests.head? with
  | none => Except.ok (s, [])
  | some entry =>
    if entry.2 == s.id && s.latests.all (fun oc => clock_ge ops oc entry.1) then
      if s.requesting then Except.ok ({ s with requesting := false }, [()])
      else Except.error "requesting was not set"
    else Except.ok (s, [])

/-- The local-acquire condition of `check_requested` in isolation: head
of `requests` is self and all of `latests` dominate its clock. -/
def entry_check (ops : ClockOps C) (s : Processor C) : Bool :=
  match s.requests.head? with
  | none => false
  | some entry => entry.2 == s.id && s.latests.all (fun oc => clock_ge ops oc entry.1)

/-- Output of the plain processor's `Recv<Clocked<Message, C>>` handler. -/
structure RecvOut (C : Type) where
  state : Processor C
  sends : List (MAddr × Message)
  upcalls : List Unit
  warnings : List String
deriving Repr, DecidableEq

/-- `Processor::on_event::<Recv<Clocked<Message, C>>>`: handle the
clocked message, then run the entry check only when `requesting`. -/
def processor_on_recv (ops : ClockOps C) (s : Processor C)
    (m : Clocked C Message) : Except String (RecvOut C) :=
  match handle_clocked ops MAddr.node s m with
  | Except.error e => Except.error e
  | Except.ok (s1, sends, warns) =>
    if s1.requesting then
      match check_requested ops s1 with
      | Except.error e => Except.error e
      | Except.ok (s2, ups) => Except.ok ⟨s2, sends, ups, warns⟩
    else Except.ok ⟨s1, sends, [], warns⟩

/-- `Processor::on_event::<events::Request>`: set `requesting` (failing
on a concurrent request) and broadcast `Request(self.id)`. -/
def processor_on_request (s : Processor C) :
    Except String (Processor C × List (MAddr × Message)) :=
  if s.requesting then Except.error "concurrent request"
  else Except.ok ({ s with requesting := true }, [(MAddr.all, Message.request s.id)])

/-- `Processor::on_event::<events::Release>`: fail when `requesting` is
still set, otherwise broadcast `Release(self.id)`. -/
def processor_on_release (s : Processor C) :
    Except String (Processor C × List (MAddr × Message)) :=
  if s.requesting then Except.error "release while requesting"
  else Except.ok (s, [(MAddr.all, Message.release s.id)])

/-- `verifiable::Ordered<C>`: an ordering certificate naming the clock
at the head, a snapshot of the issuer's `requests`, and the issuer id.
The signature of `Verifiable<Ordered<C>>` is an opaque black box and is
not modelled. -/
structure Ordered (C : Type) where
  clock : C
  after : List (C × Nat)
  id : Nat
deriving Repr, DecidableEq

/-- State of `verifiable::Processor`: the plain processor plus the fault
bound, the highest certified clock, and the per-peer certificate map
(`HashMap<u8, Verifiable<Ordered<C>>>`, modelled as an association
list with unique keys). -/
structure VProcessor (C : Type) where
  num_faulty : Nat
  inner : Processor C
  last_ordered : C
  proof : List (Nat × Ordered C)
deriving Repr, DecidableEq

/-- `HashMap::get`. -/
def assoc_get [BEq α] (l : List (α × β)) (k : α) : Option β :=
  (l.find? (fun p => p.1 == k)).map (fun p => p.2)

/-- `HashMap::insert` (replace the entry of an existing key). -/
def assoc_put [BEq α] (l : List (α × β)) (k : α) (v : β) : List (α × β) :=
  if l.any (fun p => p.1 == k) then
    l.map (fun p => if p.1 == k then (k, v) else p)
  else l ++ [(k, v)]

/-- `HashMap::remove`. -/
def assoc_remove [BEq α] (l : List (α × β)) (k : α) : List (α × β) :=
  l.filter (fun p => p.1 != k)

/-- The certificate-issuing loop at the top of
`verifiable::Processor::check_requested`: walk `requests` in order,
skip entries at or below `last_ordered`, issue and send an `Ordered`
certificate while every `latests[j]` dominates the entry's clock, and
stop at the first entry that is not yet dominated. -/
def order_loop_go (ops : ClockOps C) (s : VProcessor C)
    (sends : List (Nat × Ordered C)) :
    List (C × Nat) → VProcessor C × List (Nat × Ordered C)
  | [] => (s, sends)
  | entry :: rest =>
    if (ops.acmp entry.1 s.last_ordered).isLE then
      order_loop_go ops s sends rest
    else if s.inner.latests.all (fun oc => clock_ge ops oc entry.1) then
      order_loop_go ops { s with last_ordered := entry.1 }
        (sends ++ [(entry.2, ⟨entry.1, s.inner.requests, s.inner.id⟩)]) rest
    else (s, sends)

/-- The acquire condition of the verifiable variant in isolation: the
head of `requests` is our own entry and strictly more than `num_faulty`
stored certificates carry a clock comparing `Equal` to the head clock. -/
def v_entry_check (ops : ClockOps C) (s : VProcessor C) : Bool :=
  match s.inner.requests.head? with
  | none => false
  | some entry =>
    entry.2 == s.inner.id &&
      decide (s.num_faulty <
        s.proof.countP (fun p => ops.pcmp p.2.clock entry.1 == some Ordering.eq))

/-- `verifiable::Processor::check_requested`: run the certificate loop,
then, when `requesting` and the head of `requests` is self with strictly
more than `num_faulty` certificates whose clock equals the head clock,
clear `requesting` and emit the `RequestOk` upcall. -/
def vcheck_requested (ops : ClockOps C) (s : VProcessor C) :
    VProcessor C × List (Nat × Ordered C) × List Unit :=
  let r := order_loop_go ops s [] s.inner.requests
  let s1 := r.1
  if s1.inner.requesting then
    match s1.inner.requests.head? with
    | none => (s1, r.2, [])
    | some entry =>
      if entry.2 == s1.inner.id &&
          decide (s1.num_faulty <
            s1.proof.countP (fun p => ops.pcmp p.2.clock entry.1 == some Ordering.eq)) then
        ({ s1 with inner := { s1.inner with requesting := false } }, r.2, [()])
      else (s1, r.2, [])
  else (s1, r.2, [])

/-- `verifiable::Processor::on_event::<Recv<Clocked<Message, C>>>`:
`handle_clocked` on the inner processor (replies go to `All`), then
`check_requested` unconditionally. -/
def vprocessor_on_recv_clocked (ops : ClockOps C) (s : VProcessor C)
    (m : Clocked C Message) :
    Except String (VProcessor C × List (MAddr × Message) × List String ×
      List (Nat × Ordered C) × List Unit) :=
  match handle_clocked ops (fun _ => MAddr.all) s.inner m with
  | Except.error e => Except.error e
  | Except.ok (inner2, sends, warns) =>
    let r := vcheck_requested ops { s with inner := inner2 }
    Except.ok (r.1, sends, warns, r.2.1, r.2.2)

/-- `verifiable::Processor::on_event::<Recv<Verifiable<Ordered<C>>>>`:
discard a certificate dominated by the stored one of the same issuer,
otherwise store it (keeping one per peer) and re-run
`check_requested`. -/
def vprocessor_on_recv_ordered (ops : ClockOps C) (s : VProcessor C)
    (ordered : Ordered C) :
    VProcessor C × List (Nat × Ordered C) × List Unit :=
  match assoc_get s.proof ordered.id with
  | some other =>
    if clock_ge ops other.clock ordered.clock then (s, [], [])
    else vcheck_requested ops { s with proof := assoc_put s.proof ordered.id ordered }
  | none => vcheck_requested ops { s with proof := assoc_put s.proof ordered.id ordered }

/-- `verifiable::Processor::on_event::<events::Request>` delegates to
the inner processor. -/
def vprocessor_on_request (s : VProcessor C) :
    Except String (VProcessor C × List (MAddr × Message)) :=
  match processor_on_request s.inner with
  | Except.error e => Except.error e
  | Except.ok (inner2, sends) => Except.ok ({ s with inner := inner2 }, sends)

/-- `verifiable::Processor::on_event::<events::Release>` delegates to
the inner processor. -/
def vprocessor_on_release (s : VProcessor C) :
    Except String (VProcessor C × List (MAddr × Message)) :=
  match processor_on_release s.inner with
  | Except.error e => Except.error e
  | Except.ok (inner2, sends) => Except.ok ({ s with inner := inner2 }, sends)

/-- Events handled by the plain mutex processor. -/
inductive PEvent (C : Type)
  | localRequest
  | localRelease
  | recv (m : Clocked C Message)

/-- One handled event of the plain processor, projected to the
resulting state. -/
def processor_step (ops : ClockOps C) (s : Processor C) :
    PEvent C → Except String (Processor C)
  | PEvent.localRequest =>
    match processor_on_request s with
    | Except.error e => Except.error e
    | Except.ok r => Except.ok r.1
  | PEvent.localRelease =>
    match processor_on_release s with
    | Except.error e => Except.error e
    | Except.ok r => Except.ok r.1
  | PEvent.recv m =>
    match processor_on_recv ops s m with
    | Except.error e => Except.error e
    | Except.ok r => Except.ok r.state

/-- Events handled by the verifiable mutex processor. -/
inductive VEvent (C : Type)
  | localRequest
  | localRelease
  | recvClocked (m : Clocked C Message)
  | recvOrdered (o : Ordered C)

/-- One handled event of the verifiable processor, projected to the
resulting state. -/
def vprocessor_step (ops : ClockOps C) (s : VProcessor C) :
    VEvent C → Except String (VProcessor C)
  | VEvent.localRequest =>
    match vprocessor_on_request s with
    | Except.error e => Except.error e
    | Except.ok r => Except.ok r.1
  | VEvent.localRelease =>
    match vprocessor_on_release s with
    | Except.error e => Except.error e
    | Except.ok r => Except.ok r.1
  | VEvent.recvClocked m =>
    match vprocessor_on_recv_clocked ops s m with
    | Except.error e => Except.error e
    | Except.ok r => Except.ok r.1
  | VEvent.recvOrdered o => Except.ok (vprocessor_on_recv_ordered ops s o).1

/-- Monotonicity of a `latests` vector update: every entry is either
unchanged or replaced by a clock that compares `Greater | Equal` to the
old one in the partial order. -/
def latests_mono (ops : ClockOps C) (old new : List C) : Prop :=
  ∀ (j : Nat) (a b : C), old[j]? = some a → new[j]? = some b →
    b = a ∨ clock_ge ops b a = true

/-- An `Update { prev, remote }` request submitted to the clock
service. -/
structure CausalUpdate (C : Type) where
  prev : C
  remote : C
deriving Repr, DecidableEq

/-- State of the `Causal` layer: the current clock, the optional pending
receive queue (`Some` exactly while a clock update is in flight), and
the deferred egress closures.  Each closure of `pending_send` captures a
destination and a message and, when dispatched, stamps the clock of that
moment, so it is modelled by the captured `(dest, message)` pair. -/
structure CausalState (C M A : Type) where
  clock : C
  pending_recv : Option (List (Clocked C M))
  pending_send : List (A × M)
deriving Repr, DecidableEq

/-- Output of the `Causal` `UpdateOk` handler: the new state, the clock
updates submitted to the clock service, the clocked messages delivered
upward to the application, and the stamped messages dispatched to the
net. -/
structure UpdateOkOut (C M A : Type) where
  state : CausalState C M A
  updates : List (CausalUpdate C)
  delivered : List (Clocked C M)
  netSends : List (A × Clocked C M)
deriving Repr, DecidableEq

/-- `Causal::on_event::<UpdateOk<C>>`: require the new clock strictly
greater in the partial order, install it, pop and deliver the head of
`pending_recv` (submitting the next update with its clock) or transition
to Idle, and in either case drain `pending_send` stamped with the
just-installed clock. -/
def causal_on_update_ok (ops : ClockOps C) (s : CausalState C M A)
    (clock : C) : Except String (UpdateOkOut C M A) :=
  if ops.pcmp clock s.clock == some Ordering.gt then
    let s1 : CausalState C M A := { s with clock := clock }
    match s1.pending_recv with
    | none => Except.error "missing pending recv queue"
    | some q =>
      match q with
      | clocked :: rest =>
        Except.ok ⟨{ s1 with pending_recv := some rest, pending_send := [] },
          [⟨s1.clock, clocked.clock⟩], [clocked],
          s1.pending_send.map (fun p => (p.1, ⟨s1.clock, p.2⟩))⟩
      | [] =>
        Except.ok ⟨{ s1 with pending_recv := none, pending_send := [] },
          [], [],
          s1.pending_send.map (fun p => (p.1, ⟨s1.clock, p.2⟩))⟩
  else Except.error "update ok clock not strictly greater"

/-- `Causal::on_event::<Recv<Clocked<M, C>>>`: while an update is in
flight the message is queued; otherwise an update for the message's
clock is submitted, the state enters Updating with an empty queue, and
the message is forwarded to the application in the same handler.  The
second component lists the updates submitted to the clock service, the
third the messages delivered to the application. -/
def causal_on_recv (s : CausalState C M A) (clocked : Clocked C M) :
    CausalState C M A × List (CausalUpdate C) × List (Clocked C M) :=
  match s.pending_recv with
  | some q => ({ s with pending_recv := some (q ++ [clocked]) }, [], [])
  | none =>
    ({ s with pending_recv := some [] }, [⟨s.clock, clocked.clock⟩], [clocked])

/-- `SendMessage` through `Causal`: while an update is in flight the
send is deferred into `pending_send`; otherwise the message goes to the
net stamped with the current clock. -/
def causal_send (s : CausalState C M A) (dest : A) (message : M) :
    CausalState C M A × List (A × Clocked C M) :=
  match s.pending_recv with
  | some _ => ({ s with pending_send := s.pending_send ++ [(dest, message)] }, [])
  | none => (s, [(dest, ⟨s.clock, message⟩)])

/-- An element of the event session's queue: a fired timer (tagged with
its `timer_id`) or an ordinary event. -/
inductive SEvent (M : Type)
  | timer (id : Nat) (event : M)
  | other (event : M)
deriving Repr, DecidableEq

/-- State of `event::Session`: the monotone `timer_id` counter, the
table of active timer ids (`HashMap<TimerId, JoinHandle>`, keys only),
and the queue of already-enqueued events. -/
structure SessionState (M : Type) where
  timer_id : Nat
  timers : List Nat
  queue : List (SEvent M)
deriving Repr, DecidableEq

/-- `Session::set_internal`: allocate the next `timer_id` and insert it
into the table (the spawned sleep task is modelled separately by
`session_fire`). -/
def session_set (s : SessionState M) : SessionState M × Nat :=
  ({ s with timer_id := s.timer_id + 1, timers := s.timers ++ [s.timer_id + 1] },
    s.timer_id + 1)

/-- The spawned sleep task firing: the timer event is pushed onto the
session queue. -/
def session_fire (s : SessionState M) (id : Nat) (event : M) : SessionState M :=
  { s with queue := s.queue ++ [SEvent.timer id event] }

/-- `Session::unset`: remove the id from the table, failing with
"timer not exists" when it is absent. -/
def session_unset (s : SessionState M) (timer_id : Nat) :
    Except String (SessionState M) :=
  if s.timers.contains timer_id then
    Except.ok { s with timers := s.timers.filter (fun t => t != timer_id) }
  else Except.error "timer not exists"

/-- One iteration of `Session::run`: pop the next queued event; a timer
event is delivered only when its id is still in the table (and the
entry is removed), otherwise it is silently skipped; ordinary events are
always delivered.  `none` when the queue is empty (the loop would
block), otherwise the new state and the event handed to the user
handler (if any). -/
def session_run_step (s : SessionState M) :
    Option (SessionState M × Option M) :=
  match s.queue with
  | [] => none
  | SEvent.timer id event :: rest =>
    if s.timers.contains id then
      some ({ s with queue := rest, timers := s.timers.filter (fun t => t != id) },
        some event)
    else some ({ s with queue := rest }, none)
  | SEvent.other event :: rest => some ({ s with queue := rest }, some event)

/-- `TCP_MAX_CONNECTION_NUM`. -/
def TCP_MAX_CONNECTION_NUM : Nat := 1024

/-- `Duration::from_secs(15)`, in milliseconds (the unit used for the
`Instant` model). -/
def fifteen_secs : Nat := 15000

/-- A cached TCP connection: whether its egress channel is still alive,
and the `used_at` instant (milliseconds). -/
structure TcpConnection where
  alive : Bool
  used_at : Nat
deriving Repr, DecidableEq

/-- The `TcpControl` connection table: an LRU list keyed by remote
address (modelled as `Nat`), ordered least-recently-used first. -/
structure TcpControlState where
  connections : List (Nat × TcpConnection)
deriving Repr, DecidableEq

/-- `LruCache::get_mut` promotion: move the entry of `addr` (if any) to
the most-recently-used end. -/
def lru_promote (l : List (Nat × TcpConnection)) (addr : Nat) :
    List (Nat × TcpConnection) :=
  match l.find? (fun p => p.1 == addr) with
  | none => l
  | some e => l.filter (fun p => p.1 != addr) ++ [e]

/-- Output of `TcpControl::on_event::<Outgoing<B>>`. -/
structure TcpOut (B : Type) where
  state : TcpControlState
  warnings : List String
  evicted : List Nat
  opened : Option (Nat × B)
  enqueued : Option (Nat × B)
deriving Repr, DecidableEq

/-- The saturation loop of the `Outgoing` handler: while the table holds
at least `TCP_MAX_CONNECTION_NUM` entries, inspect the LRU entry; if it
was used within the 15-second guard return `false` (drop the message),
otherwise evict it and re-check.  Returns the remaining table, the
evicted addresses, and whether to proceed with a new connection. -/
def tcp_evict_loop : Nat → TcpControlState → Nat →
    TcpControlState × List Nat × Bool
  | 0, s, _ => (s, [], true)
  | fuel + 1, s, now =>
    if TCP_MAX_CONNECTION_NUM ≤ s.connections.length then
      match s.connections.head? with
      | none => (s, [], true)
      | some lru =>
        if now - lru.2.used_at < fifteen_secs then (s, [], false)
        else
          let r := tcp_evict_loop fuel ⟨s.connections.tail⟩ now
          (r.1, lru.1 :: r.2.1, r.2.2)
    else (s, [], true)

/-- The new-connection tail of the `Outgoing` handler: run the
saturation loop, then either drop the message with a warning or install
a fresh connection (with the message enqueued on its new channel) at
the most-recently-used end. -/
def tcp_open_new (s : TcpControlState) (remote : Nat) (buf : B) (now : Nat) :
    TcpOut B :=
  let r := tcp_evict_loop (s.connections.length + 1) s now
  if r.2.2 then
    { state := ⟨r.1.connections ++ [(remote, ⟨true, now⟩)]⟩,
      warnings := [], evicted := r.2.1,
      opened := some (remote, buf), enqueued := none }
  else
    { state := r.1,
      warnings := ["explicit drop egress message due to reaching maximum concurrent connection number"],
      evicted := r.2.1, opened := none, enqueued := none }

/-- `TcpControl::on_event::<Outgoing<B>>`: reuse a cached live
connection (touching `used_at` and promoting it), drop a dead entry and
fall through, or open a new connection subject to the LRU saturation
guard. -/
def tcp_on_outgoing (s : TcpControlState) (remote : Nat) (buf : B)
    (now : Nat) : TcpOut B :=
  match assoc_get s.connections remote with
  | some conn =>
    if conn.alive then
      { state := ⟨(lru_promote s.connections remote).map
          (fun p => if p.1 == remote then (p.1, { p.2 with used_at := now }) else p)⟩,
        warnings := [], evicted := [], opened := none,
        enqueued := some (remote, buf) }
    else tcp_open_new ⟨s.connections.filter (fun p => p.1 != remote)⟩ remote buf now
  | none => tcp_open_new s remote buf now

/-- Download state of the entropy `Peer`: the decoder slot (`none`
exactly while a decode worker is in flight; the decoder value itself is
an opaque codec black box), the fragments buffered while the decoder is
busy, and the set of indices already fed. -/
structure DownloadState where
  decoder : Option Unit
  pending : List (Nat × List Nat)
  decoded : List Nat
deriving Repr, DecidableEq

/-- Upload state of the entropy `Peer`: which fragment index was
promised to which peer (the shared encoder is an opaque codec black
box). -/
structure UploadState where
  pending : List (Nat × Nat)
deriving Repr, DecidableEq

/-- The entropy `Peer` state restricted to the fields the modelled
handlers touch (chunk ids and peer ids are abstracted to `Nat`;
`persists` is never read or written by these handlers in the source). -/
structure PeerState where
  uploads : List (Nat × UploadState)
  downloads : List (Nat × DownloadState)
deriving Repr, DecidableEq

/-- Observable effects of the entropy `Peer` handlers. -/
inductive PeerEffect
  | pullSent (chunk : Nat)
  | decodeSubmitted (chunk index : Nat) (fragment : List Nat)
  | getOk (chunk : Nat) (buf : List Nat)
  | transfer (peer chunk index : Nat) (fragment : List Nat)
deriving Repr, DecidableEq

/-- `Peer::on_event::<Get>`: create the download state with a fresh
decoder (failing on a duplicate) and multicast `Pull`. -/
def peer_on_get (s : PeerState) (chunk : Nat) :
    Except String (PeerState × List PeerEffect) :=
  if (assoc_get s.downloads chunk).isSome then
    Except.error "duplicated download chunk"
  else
    Except.ok ({ s with downloads := assoc_put s.downloads chunk ⟨some (), [], []⟩ },
      [PeerEffect.pullSent chunk])

/-- `Peer::on_event::<RecvBlob<SendFragment>>`: with a matching
download, ignore an already-fed index, otherwise record it and either
take the idle decoder and submit a decode work item or buffer the
fragment; with no matching download the branch is `todo!()` (a
panic). -/
def peer_on_recv_blob (s : PeerState) (chunk index : Nat)
    (fragment : List Nat) : Except String (PeerState × List PeerEffect) :=
  match assoc_get s.downloads chunk with
  | some st =>
    if st.decoded.contains index then Except.ok (s, [])
    else
      let st1 := { st with decoded := st.decoded ++ [index] }
      match st1.decoder with
      | some _ =>
        let d2 := assoc_put s.downloads chunk { st1 with decoder := none }
        Except.ok ({ s with downloads := d2 },
          [PeerEffect.decodeSubmitted chunk index fragment])
      | none =>
        let d2 := assoc_put s.downloads chunk
          { st1 with pending := assoc_put st1.pending index fragment }
        Except.ok ({ s with downloads := d2 }, [])
  | none => Except.error "todo: SendFragment blob without matching download"

/-- `Peer::on_event::<Decode>` (the decode worker reported "need more"):
with a matching download, assert no decoder is held, then either
immediately resubmit a buffered fragment or park the decoder as idle;
with no matching download the completion is silently discarded. -/
def peer_on_decode (s : PeerState) (chunk : Nat) :
    Except String (PeerState × List PeerEffect) :=
  match assoc_get s.downloads chunk with
  | some st =>
    match st.decoder with
    | some _ => Except.error "panic: decoder is present"
    | none =>
      match st.pending with
      | entry :: restPending =>
        let d2 := assoc_put s.downloads chunk { st with pending := restPending }
        Except.ok ({ s with downloads := d2 },
          [PeerEffect.decodeSubmitted chunk entry.1 entry.2])
      | [] =>
        let d2 := assoc_put s.downloads chunk { st with decoder := some () }
        Except.ok ({ s with downloads := d2 }, [])
  | none => Except.ok (s, [])

/-- `Peer::on_event::<Recover>`: with a matching download, remove it and
deliver `GetOk`; with no matching download the branch is `todo!()` (a
panic). -/
def peer_on_recover (s : PeerState) (chunk : Nat) (buf : List Nat) :
    Except String (PeerState × List PeerEffect) :=
  if (assoc_get s.downloads chunk).isSome then
    Except.ok ({ s with downloads := assoc_remove s.downloads chunk },
      [PeerEffect.getOk chunk buf])
  else Except.error "todo: Recover without matching download"

/-- `Peer::on_event::<Encode>`: a completion whose upload state or whose
pending index record has since been removed is silently discarded,
otherwise the fragment is streamed to the recorded peer via blob
transfer. -/
def peer_on_encode (s : PeerState) (chunk index : Nat)
    (fragment : List Nat) : Except String (PeerState × List PeerEffect) :=
  match assoc_get s.uploads chunk with
  | none => Except.ok (s, [])
  | some st =>
    match assoc_get st.pending index with
    | none => Except.ok (s, [])
    | some peer => Except.ok (s, [PeerEffect.transfer peer chunk index fragment])

/-- Events driving the modelled entropy `Peer`: application requests,
network blob arrivals, and codec worker completions. -/
inductive PeerEvent
  | get (chunk : Nat)
  | recvBlob (chunk index : Nat) (fragment : List Nat)
  | decodeDone (chunk : Nat)
  | recoverDone (chunk : Nat) (buf : List Nat)
  | encodeDone (chunk index : Nat) (fragment : List Nat)
deriving Repr, DecidableEq

/-- One handled event of the entropy `Peer`. -/
def peer_step (s : PeerState) :
    PeerEvent → Except String (PeerState × List PeerEffect)
  | PeerEvent.get chunk => peer_on_get s chunk
  | PeerEvent.recvBlob chunk index fragment => peer_on_recv_blob s chunk index fragment
  | PeerEvent.decodeDone chunk => peer_on_decode s chunk
  | PeerEvent.recoverDone chunk buf => peer_on_recover s chunk buf
  | PeerEvent.encodeDone chunk index fragment => peer_on_encode s chunk index fragment

/-- A sequence of handled events of the entropy `Peer`; the first panic
or error aborts the actor. -/
def peer_run (s : PeerState) :
    List PeerEvent → Except String (PeerState × List PeerEffect)
  | [] => Except.ok (s, [])
  | e :: rest =>
    match peer_step s e with
    | Except.error err => Except.error err
    | Except.ok (s1, effs) =>
      match peer_run s1 rest with
      | Except.error err => Except.error err
      | Except.ok (s2, effs2) => Except.ok (s2, effs ++ effs2)

/-- The filesystem as seen by `entropy::fs::session`: the set of chunk
directories present and the fragment files, keyed by
`(chunk, index)`.  Filesystem primitives follow their standard
semantics: `create_dir` fails when the directory already exists, `read`
fails when the file is absent, `remove_dir_all` removes the directory
and every file in it. -/
structure FsState where
  dirs : List Nat
  files : List ((Nat × Nat) × List Nat)
deriving Repr, DecidableEq

/-- Requests of the fs session. -/
inductive FsEvent
  | store (chunk index : Nat) (fragment : List Nat)
  | load (chunk index : Nat) (take : Bool)
deriving Repr, DecidableEq

/-- Completions reported upward by the fs session. -/
inductive FsUpcall
  | storeOk (chunk : Nat)
  | loadOk (chunk index : Nat) (fragment : List Nat)
deriving Repr, DecidableEq

/-- A `Store` task: `create_dir` the chunk directory unconditionally
(failing when it already exists), then write the fragment file. -/
def fs_store_task (fs : FsState) (chunk index : Nat) (fragment : List Nat) :
    Except String (FsState × FsUpcall) :=
  if fs.dirs.contains chunk then
    Except.error "create_dir: directory already exists"
  else
    Except.ok (⟨fs.dirs ++ [chunk], fs.files ++ [((chunk, index), fragment)]⟩,
      FsUpcall.storeOk chunk)

/-- A `Load` task: read the fragment file (failing when it was never
stored); with the `take` flag the whole chunk directory is removed
after the read. -/
def fs_load_task (fs : FsState) (chunk index : Nat) (take : Bool) :
    Except String (FsState × FsUpcall) :=
  match assoc_get fs.files (chunk, index) with
  | none => Except.error "read: no such file"
  | some fragment =>
    let fs2 : FsState :=
      if take then
        ⟨fs.dirs.filter (fun d => d != chunk),
          fs.files.filter (fun p => p.1.1 != chunk)⟩
      else fs
    Except.ok (fs2, FsUpcall.loadOk chunk index fragment)

/-- The task spawned for one fs session request. -/
def fs_task (fs : FsState) : FsEvent → Except String (FsState × FsUpcall)
  | FsEvent.store chunk index fragment => fs_store_task fs chunk index fragment
  | FsEvent.load chunk index take => fs_load_task fs chunk index take

/-- `entropy::fs::session`, sequentialized (each spawned task is joined
before the next request is consumed; this preserves the `result??`
error propagation under scrutiny): any task failure makes the whole
session return that error, serving no further request. -/
def fs_session_run (fs : FsState) :
    List FsEvent → Except String (FsState × List FsUpcall)
  | [] => Except.ok (fs, [])
  | e :: rest =>
    match fs_task fs e with
    | Except.error err => Except.error err
    | Except.ok (fs1, up) =>
      match fs_session_run fs1 rest with
      | Except.error err => Except.error err
      | Except.ok (fs2, ups) => Except.ok (fs2, up :: ups)

/-! ## Helper lemmas -/

/-- `handle_kind` touches only `requests`: `latests`, `requesting` and
`id` are preserved, and it never warns. -/
theorem handle_kind_fields (ops : ClockOps C) (intoAddr : Nat → MAddr)
    (s : Processor C) (m : Clocked C Message) (s1 : Processor C)
    (sends : List (MAddr × Message)) (warns : List String)
    (h : handle_kind ops intoAddr s m = Except.ok (s1, sends, warns)) :
    s1.latests = s.latests ∧ s1.requesting = s.requesting ∧ s1.id = s.id ∧
      warns = [] := by
  simp only [handle_kind] at h
  split at h
  · split at h
    · simp only [Except.ok.injEq, Prod.mk.injEq] at h
      obtain ⟨h1, h2, h3⟩ := h
      subst h1; subst h2; subst h3
      exact ⟨rfl, rfl, rfl, rfl⟩
    · simp only [Except.ok.injEq, Prod.mk.injEq] at h
      obtain ⟨h1, h2, h3⟩ := h
      subst h1; subst h2; subst h3
      exact ⟨rfl, rfl, rfl, rfl⟩
  · simp only [Except.ok.injEq, Prod.mk.injEq] at h
    obtain ⟨h1, h2, h3⟩ := h
    subst h1; subst h2; subst h3
    exact ⟨rfl, rfl, rfl, rfl⟩
  · split at h
    · simp only [Except.ok.injEq, Prod.mk.injEq] at h
      obtain ⟨h1, h2, h3⟩ := h
      subst h1; subst h2; subst h3
      exact ⟨rfl, rfl, rfl, rfl⟩
    · split at h
      · simp at h
      · split at h
        · simp only [Except.ok.injEq, Prod.mk.injEq] at h
          obtain ⟨h1, h2, h3⟩ := h
          subst h1; subst h2; subst h3
          exact ⟨rfl, rfl, rfl, rfl⟩
        · simp at h

/-- `handle_clocked` preserves `requesting` and `id`. -/
theorem handle_clocked_fields (ops : ClockOps C) (intoAddr : Nat → MAddr)
    (s : Processor C) (m : Clocked C Message) (s1 : Processor C)
    (sends : List (MAddr × Message)) (warns : List String)
    (h : handle_clocked ops intoAddr s m = Except.ok (s1, sends, warns)) :
    s1.requesting = s.requesting ∧ s1.id = s.id := by
  simp only [handle_clocked] at h
  split at h
  · simp at h
  · split at h
    · have hf := handle_kind_fields ops intoAddr _ m s1 sends warns h
      exact ⟨hf.2.1, hf.2.2.1⟩
    · simp only [Except.ok.injEq, Prod.mk.injEq] at h
      obtain ⟨h1, h2, h3⟩ := h
      subst h1
      exact ⟨rfl, rfl⟩

/-- Removing every occurrence of `id` from the timer table leaves a
table in which `id` is no longer found. -/
theorem contains_filter_bne_self (l : List Nat) (id : Nat) :
    (l.filter (fun t => t != id)).contains id = false := by
  cases hb : (l.filter (fun t => t != id)).contains id with
  | false => rfl
  | true =>
    exfalso
    obtain ⟨x, hx, hbeq⟩ := List.contains_iff_exists_mem_beq.mp hb
    have hxl := List.mem_filter.mp hx
    have hxe : id = x := eq_of_beq hbeq
    subst hxe
    simp at hxl

/-! ## C4 -/

/-- C4 counterexample: with the causal layer Idle (clock `(0,0)`,
`pending_recv = none`) a received clocked message is delivered to the
application by the very same handler invocation that submits the clock
update — the third component (messages forwarded to `recv_sender`) is
non-empty although no `UpdateOk` has been processed, so the message is
not held until the clock update completes as the claim states. -/
theorem c4_counterexample :
    causal_on_recv (C := Nat × Nat) (M := Nat) (A := Nat)
        ⟨(0, 0), none, []⟩ ⟨(1, 1), 42⟩ =
      (⟨(0, 0), some [], []⟩, [⟨(0, 0), (1, 1)⟩], [⟨(1, 1), 42⟩]) := rfl

/-- C4 (amended): when the causal layer is Idle and receives a clocked
message it submits an immediate clock update request for that message's
clock (prev = current clock, remote = the message clock) and
transitions to Updating with an empty hold queue, but the message
itself is delivered to the application in the same handler, before the
update completes; only messages that arrive while an update is already
in flight are held in `pending_recv`. -/
theorem c4_idle_recv_submits_and_delivers (s : CausalState C M A)
    (clocked : Clocked C M) :
    (s.pending_recv = none →
      causal_on_recv s clocked =
        (⟨s.clock, some [], s.pending_send⟩,
          [⟨s.clock, clocked.clock⟩], [clocked])) ∧
    (∀ q, s.pending_recv = some q →
      causal_on_recv s clocked =
        (⟨s.clock, some (q ++ [clocked]), s.pending_send⟩, [], [])) := by
  constructor
  · intro h
    unfold causal_on_recv
    rw [h]
  · intro q h
    unfold causal_on_recv
    rw [h]

/-- C4 witness: the amended statement at a concrete Idle state. -/
theorem c4_witness :
    causal_on_recv (C := Nat × Nat) (M := Nat) (A := Nat)
        ⟨(5, 0), none, []⟩ ⟨(7, 1), 3⟩ =
      (⟨(5, 0), some [], []⟩, [⟨(5, 0), (7, 1)⟩], [⟨(7, 1), 3⟩]) :=
  (c4_idle_recv_submits_and_delivers ⟨(5, 0), none, []⟩ ⟨(7, 1), 3⟩).1 rfl

/-! ## C5 -/

/-- C5 counterexample: with the product-order clock, the clock `(0,1)`
of a received message is incomparable to `latests[0] = (1,0)`
(`partial_cmp` is `none`, so in particular not strictly less), yet
`handle_clocked` warns and drops the message — contradicting the
claim that a message is dropped only when its clock is strictly less
than `latests[id]` and that an incomparable clock is not dropped. -/
theorem c5_counterexample :
    prodOps.pcmp (0, 1) (1, 0) = none ∧
    handle_clocked prodOps MAddr.node ⟨0, [(1, 0)], [], false⟩
        ⟨(0, 1), Message.requestOk 0⟩ =
      Except.ok (⟨0, [(1, 0)], [], false⟩, [], ["out of order clock received"]) :=
  ⟨rfl, rfl⟩

/-- C5 (amended): a received clocked mutex message from processor `id`
is warned about and dropped (state unchanged, no sends) exactly when
its clock is NOT greater-or-equal to `latests[id]` in the partial
order — that is, when it is strictly less OR incomparable; when it is
greater-or-equal, `latests[id]` is set to the message's clock before
the message kind is processed, and no warning is emitted. -/
theorem c5_drop_iff_not_ge (ops : ClockOps C) (intoAddr : Nat → MAddr)
    (s : Processor C) (m : Clocked C Message) (latest : C)
    (h : s.latests[msgId m.inner]? = some latest) :
    (clock_ge ops m.clock latest = false →
      handle_clocked ops intoAddr s m =
        Except.ok (s, [], ["out of order clock received"])) ∧
    (clock_ge ops m.clock latest = true →
      handle_clocked ops intoAddr s m =
        handle_kind ops intoAddr
          ⟨s.id, s.latests.set (msgId m.inner) m.clock, s.requests, s.requesting⟩ m) ∧
    (∀ r1 sends warns,
      handle_kind ops intoAddr
          ⟨s.id, s.latests.set (msgId m.inner) m.clock, s.requests, s.requesting⟩ m =
        Except.ok (r1, sends, warns) → warns = []) := by
  refine ⟨?_, ?_, ?_⟩
  · intro hlt
    simp only [handle_clocked, h, hlt]
    rfl
  · intro hge
    simp only [handle_clocked, h, hge]
    rfl
  · intro r1 sends warns hk
    exact (handle_kind_fields ops intoAddr _ m r1 sends warns hk).2.2.2

/-- C5 witness: the amended statement at a concrete input whose clock
passes the guard. -/
theorem c5_witness :
    handle_clocked lamportOps MAddr.node ⟨0, [(1, 0)], [], false⟩
        ⟨(2, 0), Message.requestOk 0⟩ =
      handle_kind lamportOps MAddr.node ⟨0, [(2, 0)], [], false⟩
        ⟨(2, 0), Message.requestOk 0⟩ :=
  ((c5_drop_iff_not_ge lamportOps MAddr.node ⟨0, [(1, 0)], [], false⟩
    ⟨(2, 0), Message.requestOk 0⟩ (1, 0) rfl).2.1) rfl

/-! ## C7 -/

/-- C7 counterexample: timer 1 was set and has fired; the session loop
delivers its event (removing the table entry), and a subsequent
`unset(1)` returns the error "timer not exists" — not the success the
claim states. -/
theorem c7_counterexample :
    session_run_step (M := Nat) ⟨1, [1], [SEvent.timer 1 5]⟩ =
      some (⟨1, [], []⟩, some 5) ∧
    session_unset (M := Nat) ⟨1, [], []⟩ 1 = Except.error "timer not exists" :=
  ⟨rfl, rfl⟩

/-- C7 (amended): delivering a timer event removes its id from the
timer table, so calling `unset(id)` after the event has been delivered
by the session loop fails with the error "timer not exists" — exactly
the same error produced by `unset` on a timer id that was never
issued. -/
theorem c7_unset_after_delivery_errors (M : Type) (s : SessionState M)
    (id : Nat) (event : M) (rest : List (SEvent M))
    (hq : s.queue = SEvent.timer id event :: rest)
    (ht : s.timers.contains id = true) :
    session_run_step s =
      some (⟨s.timer_id, s.timers.filter (fun t => t != id), rest⟩, some event) ∧
    session_unset (⟨s.timer_id, s.timers.filter (fun t => t != id), rest⟩ :
        SessionState M) id =
      Except.error "timer not exists" ∧
    (∀ (t : SessionState M) (i : Nat), t.timers.contains i = false →
      session_unset t i = Except.error "timer not exists") := by
  refine ⟨?_, ?_, ?_⟩
  · have hmem : id ∈ s.timers := by simpa using ht
    unfold session_run_step
    rw [hq]
    simp [hmem]
  · unfold session_unset
    simp [contains_filter_bne_self]
  · intro t i hc
    have hmem : i ∉ t.timers := by simpa using hc
    unfold session_unset
    simp [hmem]

/-- C7 witness: the amended statement at a concrete session state. -/
theorem c7_witness :
    session_unset (M := Nat) ⟨2, [2], [SEvent.other 9]⟩ 7 =
      Except.error "timer not exists" :=
  (c7_unset_after_delivery_errors Nat ⟨2, [2, 7], [SEvent.timer 7 0]⟩ 7 0 []
    rfl rfl).2.2 ⟨2, [2], [SEvent.other 9]⟩ 7 rfl

/-! ## C9 -/

/-- C9 counterexample: a fragment CAN arrive after its download
completed and was removed, and then the `RecvBlob<SendFragment>`
handler does observe a chunk absent from `downloads` and hits the
`todo!()` panic.  The trace is fully legitimate: `Get 7` opens the
download, the first fragment takes the decoder and submits a decode
work item, the codec reports recovery (`Recover`) which removes the
download and emits `GetOk`, and then one more fragment for chunk 7
arrives from another responding peer. -/
theorem c9_counterexample :
    peer_run ⟨[], []⟩
        [PeerEvent.get 7, PeerEvent.recvBlob 7 0 [1, 2],
          PeerEvent.recoverDone 7 [9]] =
      Except.ok (⟨[], []⟩,
        [PeerEffect.pullSent 7, PeerEffect.decodeSubmitted 7 0 [1, 2],
          PeerEffect.getOk 7 [9]]) ∧
    peer_run ⟨[], []⟩
        [PeerEvent.get 7, PeerEvent.recvBlob 7 0 [1, 2],
          PeerEvent.recoverDone 7 [9], PeerEvent.recvBlob 7 1 [3, 4]] =
      Except.error "todo: SendFragment blob without matching download" :=
  ⟨rfl, rfl⟩

/-- C9 (amended): worker completions referring to state that has since
been removed are silently discarded for `Decode` (no matching download)
and `Encode` (no matching upload) — state unchanged, no effects; but
the `RecvBlob<SendFragment>` and `Recover` branches for a chunk absent
from `downloads` are NOT unreachable-and-harmless: they are `todo!()`
panics, and the `RecvBlob` one is reachable by a fragment arriving
after the download completed and was removed. -/
theorem c9_stale_completions (s : PeerState) :
    (∀ chunk, assoc_get s.downloads chunk = none →
      peer_on_decode s chunk = Except.ok (s, [])) ∧
    (∀ chunk index fragment, assoc_get s.uploads chunk = none →
      peer_on_encode s chunk index fragment = Except.ok (s, [])) ∧
    (∀ chunk index fragment, assoc_get s.downloads chunk = none →
      peer_on_recv_blob s chunk index fragment =
        Except.error "todo: SendFragment blob without matching download") ∧
    (∀ chunk buf, assoc_get s.downloads chunk = none →
      peer_on_recover s chunk buf =
        Except.error "todo: Recover without matching download") := by
  refine ⟨?_, ?_, ?_, ?_⟩
  · intro chunk h
    unfold peer_on_decode
    rw [h]
  · intro chunk index fragment h
    unfold peer_on_encode
    rw [h]
  · intro chunk index fragment h
    unfold peer_on_recv_blob
    rw [h]
  · intro chunk buf h
    unfold peer_on_recover
    rw [h]
    rfl

/-- C9 witness: a stale `Decode` completion on an empty peer state is
discarded. -/
theorem c9_witness :
    peer_on_decode ⟨[], []⟩ 3 = Except.ok (⟨[], []⟩, []) :=
  (c9_stale_completions ⟨[], []⟩).1 3 rfl

/-! ## C10 -/

/-- C10: in the entropy fs session any failing store or load task
terminates the whole session with that error (no per-request failure
report, no further request served); in particular a `Store` for a
chunk whose directory already exists fails (the directory is created
unconditionally, so a second store for the same chunk on one peer
fails), and a `Load` of a fragment file that was never stored fails. -/
theorem c10_fs_session_error :
    (∀ (fs : FsState) (e : FsEvent) (rest : List FsEvent) (err : String),
      fs_task fs e = Except.error err →
      fs_session_run fs (e :: rest) = Except.error err) ∧
    (∀ (fs : FsState) (chunk index : Nat) (fragment : List Nat),
      fs.dirs.contains chunk = true →
      fs_task fs (FsEvent.store chunk index fragment) =
        Except.error "create_dir: directory already exists") ∧
    (∀ (fs : FsState) (chunk index : Nat) (tk : Bool),
      assoc_get fs.files (chunk, index) = none →
      fs_task fs (FsEvent.load chunk index tk) =
        Except.error "read: no such file") ∧
    (∀ (fs fs1 : FsState) (chunk index : Nat) (fragment : List Nat)
      (up : FsUpcall),
      fs_task fs (FsEvent.store chunk index fragment) = Except.ok (fs1, up) →
      fs1.dirs.contains chunk = true) := by
  refine ⟨?_, ?_, ?_, ?_⟩
  · intro fs e rest err h
    unfold fs_session_run
    rw [h]
  · intro fs chunk index fragment h
    have hmem : chunk ∈ fs.dirs := by simpa using h
    simp only [fs_task, fs_store_task]
    simp [hmem]
  · intro fs chunk index tk h
    simp only [fs_task, fs_load_task]
    rw [h]
  · intro fs fs1 chunk index fragment up h
    simp only [fs_task, fs_store_task] at h
    split at h
    · simp at h
    · simp only [Except.ok.injEq, Prod.mk.injEq] at h
      obtain ⟨h1, h2⟩ := h
      subst h1
      simp

/-- C10 witness: a second store for chunk 3 terminates a session that
still has a pending load queued behind it. -/
theorem c10_witness :
    fs_session_run ⟨[3], []⟩ [FsEvent.store 3 0 [1], FsEvent.load 9 9 false] =
      Except.error "create_dir: directory already exists" :=
  c10_fs_session_error.1 ⟨[3], []⟩ (FsEvent.store 3 0 [1])
    [FsEvent.load 9 9 false] "create_dir: directory already exists" rfl

/-! ## C3 -/

/-- C3: the causal layer's `UpdateOk` handler (in the Updating state,
`pending_recv = some q`) aborts unless the new clock is strictly
greater than the current clock in the partial order; on success it
installs the new clock, and — if `q` is non-empty — pops the head
message, submits a clock update with that message's clock, and
delivers the popped message to the application, while otherwise it
transitions to Idle (`pending_recv = none`); in either case every
deferred egress closure of `pending_send` is dispatched to the net
stamped with the just-installed clock, leaving `pending_send` empty. -/
theorem c3_update_ok (ops : ClockOps C) (s : CausalState C M A)
    (newClock : C) (q : List (Clocked C M))
    (hq : s.pending_recv = some q) :
    (ops.pcmp newClock s.clock ≠ some Ordering.gt →
      causal_on_update_ok ops s newClock =
        Except.error "update ok clock not strictly greater") ∧
    (ops.pcmp newClock s.clock = some Ordering.gt →
      causal_on_update_ok ops s newClock =
        Except.ok ⟨⟨newClock,
            (match q with | _ :: rest => some rest | [] => none),
            []⟩,
          (match q with | c :: _ => [⟨newClock, c.clock⟩] | [] => []),
          (match q with | c :: _ => [c] | [] => []),
          s.pending_send.map (fun p => (p.1, ⟨newClock, p.2⟩))⟩) := by
  constructor
  · intro h
    have hb : (ops.pcmp newClock s.clock == some Ordering.gt) = false := by
      cases hx : ops.pcmp newClock s.clock with
      | none => rfl
      | some o =>
        cases o with
        | lt => rfl
        | eq => rfl
        | gt => exact absurd hx h
    unfold causal_on_update_ok
    rw [hb]
    rfl
  · intro h
    have hb : (ops.pcmp newClock s.clock == some Ordering.gt) = true := by
      rw [h]; rfl
    unfold causal_on_update_ok
    rw [hb]
    simp only [if_pos rfl]
    cases q with
    | nil => simp [hq]
    | cons c rest => simp [hq]

/-- C3 witness: the success case at a concrete Updating state with a
queued message and a deferred send. -/
theorem c3_witness :
    causal_on_update_ok lamportOps (M := Nat) (A := Nat)
        ⟨(1, 0), some [⟨(2, 1), 7⟩], [(9, 5)]⟩ (3, 0) =
      Except.ok ⟨⟨(3, 0), some [], []⟩, [⟨(3, 0), (2, 1)⟩], [⟨(2, 1), 7⟩],
        [(9, ⟨(3, 0), 5⟩)]⟩ :=
  (c3_update_ok lamportOps ⟨(1, 0), some [⟨(2, 1), 7⟩], [(9, 5)]⟩ (3, 0)
    [⟨(2, 1), 7⟩] rfl).2 rfl

/-! ## C1 -/

/-- C1: after the plain Lamport mutex processor handles any received
clocked message (reaching intermediate state `s1`), if `requesting` is
true and the head `(clock*, id*)` of `requests` has `id* = self.id`
with every `latests[j]` (including self) greater-or-equal to `clock*`
in the partial order, then `requesting` becomes false and exactly one
`RequestOk` upcall is emitted; if `requesting` is false, the head is
absent, or either condition fails, no upcall is emitted and
`requesting` is unchanged (`handle_clocked` itself never changes
`requesting`). -/
theorem c1_recv_acquire (ops : ClockOps C) (s : Processor C)
    (m : Clocked C Message) (s1 : Processor C)
    (sends : List (MAddr × Message)) (warns : List String)
    (h : handle_clocked ops MAddr.node s m = Except.ok (s1, sends, warns)) :
    s1.requesting = s.requesting ∧
    processor_on_recv ops s m =
      Except.ok ⟨(if s1.requesting && entry_check ops s1 then
          { s1 with requesting := false } else s1),
        sends,
        (if s1.requesting && entry_check ops s1 then [()] else []),
        warns⟩ := by
  refine ⟨(handle_clocked_fields ops MAddr.node s m s1 sends warns h).1, ?_⟩
  unfold processor_on_recv
  rw [h]
  cases hreq : s1.requesting with
  | false => simp [hreq]
  | true =>
    simp only [Bool.true_and]
    unfold check_requested entry_check
    cases hhead : s1.requests.head? with
    | none => simp
    | some entry =>
      by_cases hcond :
        (entry.2 == s1.id && s1.latests.all (fun oc => clock_ge ops oc entry.1)) = true
      · simp [hcond, hreq]
      · simp only [Bool.not_eq_true] at hcond
        simp [hcond]

/-- C1 witness: a concrete acquisition — processor 0 is requesting, its
own entry heads the queue, and the incoming `RequestOk` from processor
1 raises `latests[1]` past the head clock, so the handler clears
`requesting` and emits exactly one upcall. -/
theorem c1_witness :
    processor_on_recv lamportOps ⟨0, [(1, 0), (0, 1)], [((1, 0), 0)], true⟩
        ⟨(1, 1), Message.requestOk 1⟩ =
      Except.ok ⟨⟨0, [(1, 0), (1, 1)], [((1, 0), 0)], false⟩, [], [()], []⟩ :=
  (c1_recv_acquire lamportOps ⟨0, [(1, 0), (0, 1)], [((1, 0), 0)], true⟩
    ⟨(1, 1), Message.requestOk 1⟩ ⟨0, [(1, 0), (1, 1)], [((1, 0), 0)], true⟩
    [] [] rfl).2

/-! ## C2 -/

/-- The certificate-issuing loop only updates `last_ordered` (and
collects sends): the inner processor, the certificate map and the fault
bound are untouched. -/
theorem order_loop_go_preserves (ops : ClockOps C) :
    ∀ (reqs : List (C × Nat)) (s : VProcessor C)
      (sends : List (Nat × Ordered C)),
      (order_loop_go ops s sends reqs).1.inner = s.inner ∧
      (order_loop_go ops s sends reqs).1.proof = s.proof ∧
      (order_loop_go ops s sends reqs).1.num_faulty = s.num_faulty := by
  intro reqs
  induction reqs with
  | nil =>
    intro s sends
    exact ⟨rfl, rfl, rfl⟩
  | cons entry rest ih =>
    intro s sends
    unfold order_loop_go
    split
    · exact ih s sends
    · split
      · exact ih _ _
      · exact ⟨rfl, rfl, rfl⟩

/-- C2: the verifiable mutex processor's `check_requested`, run with
`requesting` true, acquires the lock (clears `requesting` and emits
exactly one `RequestOk` upcall) exactly when the head `(clock*, id*)`
of `requests` has `id*` equal to its own id and strictly more than
`num_faulty` of the stored per-peer `Ordered` certificates in `proof`
carry a clock comparing `Equal` to `clock*`; otherwise `requesting`
stays true and no upcall is emitted. -/
theorem c2_verifiable_acquire (ops : ClockOps C) (s : VProcessor C)
    (hreq : s.inner.requesting = true) :
    (vcheck_requested ops s).1.inner.requesting = !(v_entry_check ops s) ∧
    (vcheck_requested ops s).2.2 =
      (if v_entry_check ops s then [()] else []) := by
  obtain ⟨h1, h2, h3⟩ := order_loop_go_preserves ops s.inner.requests s []
  simp only [vcheck_requested]
  unfold v_entry_check
  rw [h1, h2, h3, hreq]
  cases hhead : s.inner.requests.head? with
  | none => simp [h1, hreq]
  | some entry =>
    by_cases hcond :
      (entry.2 == s.inner.id &&
        decide (s.num_faulty <
          s.proof.countP
            (fun p => ops.pcmp p.2.clock entry.1 == some Ordering.eq))) = true
    · simp [hcond]
    · simp only [Bool.not_eq_true] at hcond
      simp [hcond, h1, hreq]

/-- C2 witness: processor 0 is requesting with its entry `((1,0), 0)`
at the head, `num_faulty = 1`, and certificates from peers 1 and 2
both carrying clock `(1,0)`; the count 2 exceeds `num_faulty`, so
`check_requested` clears `requesting` and emits the upcall. -/
theorem c2_witness :
    (vcheck_requested lamportOps
      ⟨1, ⟨0, [(2, 0), (2, 1), (2, 2)], [((1, 0), 0)], true⟩, (9, 9),
        [(1, ⟨(1, 0), [], 1⟩), (2, ⟨(1, 0), [], 2⟩)]⟩).1.inner.requesting =
        false ∧
    (vcheck_requested lamportOps
      ⟨1, ⟨0, [(2, 0), (2, 1), (2, 2)], [((1, 0), 0)], true⟩, (9, 9),
        [(1, ⟨(1, 0), [], 1⟩), (2, ⟨(1, 0), [], 2⟩)]⟩).2.2 = [()] :=
  c2_verifiable_acquire lamportOps
    ⟨1, ⟨0, [(2, 0), (2, 1), (2, 2)], [((1, 0), 0)], true⟩, (9, 9),
      [(1, ⟨(1, 0), [], 1⟩), (2, ⟨(1, 0), [], 2⟩)]⟩ rfl

/-! ## C6 -/

/-- Equal `latests` vectors are trivially monotone. -/
theorem latests_mono_of_eq (ops : ClockOps C) (old new : List C)
    (h : new = old) : latests_mono ops old new := by
  subst h
  intro j a b ha hb
  exact Or.inl (Option.some.inj (ha.symm.trans hb)).symm

/-- `handle_clocked` replaces `latests` entries only by clocks that
pass the `Greater | Equal` guard: one step is monotone. -/
theorem handle_clocked_mono (ops : ClockOps C) (intoAddr : Nat → MAddr)
    (s : Processor C) (m : Clocked C Message) (s1 : Processor C)
    (sends : List (MAddr × Message)) (warns : List String)
    (h : handle_clocked ops intoAddr s m = Except.ok (s1, sends, warns)) :
    latests_mono ops s.latests s1.latests := by
  simp only [handle_clocked] at h
  split at h
  · simp at h
  · rename_i latest hlat
    split at h
    · rename_i hge
      have hl := (handle_kind_fields ops intoAddr _ m s1 sends warns h).1
      rw [hl]
      intro j a b ha hb
      by_cases hji : j = msgId m.inner
      · subst hji
        obtain ⟨hlt, _⟩ := List.getElem?_eq_some_iff.mp ha
        rw [List.getElem?_set_self hlt] at hb
        have hb2 : b = m.clock := (Option.some.inj hb).symm
        have ha2 : a = latest := Option.some.inj (ha.symm.trans hlat)
        right
        rw [hb2, ha2]
        exact hge
      · rw [List.getElem?_set_ne (fun hh => hji hh.symm)] at hb
        exact Or.inl (Option.some.inj (ha.symm.trans hb)).symm
    · simp only [Except.ok.injEq, Prod.mk.injEq] at h
      obtain ⟨h1, h2, h3⟩ := h
      subst h1
      exact latests_mono_of_eq ops s.latests s.latests rfl

/-- `check_requested` never touches `latests`. -/
theorem check_requested_latests (ops : ClockOps C) (s s2 : Processor C)
    (ups : List Unit) (h : check_requested ops s = Except.ok (s2, ups)) :
    s2.latests = s.latests := by
  simp only [check_requested] at h
  split at h
  · simp only [Except.ok.injEq, Prod.mk.injEq] at h
    obtain ⟨h1, h2⟩ := h
    subst h1
    rfl
  · split at h
    · split at h
      · simp only [Except.ok.injEq, Prod.mk.injEq] at h
        obtain ⟨h1, h2⟩ := h
        subst h1
        rfl
      · simp at h
    · simp only [Except.ok.injEq, Prod.mk.injEq] at h
      obtain ⟨h1, h2⟩ := h
      subst h1
      rfl

/-- The local `Request` handler never touches `latests`. -/
theorem processor_on_request_latests (s s1 : Processor C)
    (sends : List (MAddr × Message))
    (h : processor_on_request s = Except.ok (s1, sends)) :
    s1.latests = s.latests := by
  simp only [processor_on_request] at h
  split at h
  · simp at h
  · simp only [Except.ok.injEq, Prod.mk.injEq] at h
    obtain ⟨h1, h2⟩ := h
    subst h1
    rfl

/-- The local `Release` handler never touches `latests`. -/
theorem processor_on_release_latests (s s1 : Processor C)
    (sends : List (MAddr × Message))
    (h : processor_on_release s = Except.ok (s1, sends)) :
    s1.latests = s.latests := by
  simp only [processor_on_release] at h
  split at h
  · simp at h
  · simp only [Except.ok.injEq, Prod.mk.injEq] at h
    obtain ⟨h1, h2⟩ := h
    subst h1
    rfl

/-- The plain `Recv` handler changes `latests` only through
`handle_clocked`: the whole step is monotone. -/
theorem processor_on_recv_mono (ops : ClockOps C) (s : Processor C)
    (m : Clocked C Message) (r : RecvOut C)
    (h : processor_on_recv ops s m = Except.ok r) :
    latests_mono ops s.latests r.state.latests := by
  simp only [processor_on_recv] at h
  split at h
  · simp at h
  · rename_i s1 sends warns heq
    split at h
    · split at h
      · simp at h
      · rename_i s3 ups heq2
        simp only [Except.ok.injEq] at h
        subst h
        show latests_mono ops s.latests s3.latests
        rw [check_requested_latests ops s1 s3 ups heq2]
        exact handle_clocked_mono ops MAddr.node s m s1 sends warns heq
    · simp only [Except.ok.injEq] at h
      subst h
      exact handle_clocked_mono ops MAddr.node s m s1 sends warns heq

/-- `vcheck_requested` never touches the inner `latests`. -/
theorem vcheck_requested_latests (ops : ClockOps C) (t : VProcessor C) :
    (vcheck_requested ops t).1.inner.latests = t.inner.latests := by
  obtain ⟨h1, h2, h3⟩ := order_loop_go_preserves ops t.inner.requests t []
  simp only [vcheck_requested]
  split
  · split
    · simpa using congrArg Processor.latests h1
    · split
      · simpa using congrArg Processor.latests h1
      · simpa using congrArg Processor.latests h1
  · simpa using congrArg Processor.latests h1

/-- The verifiable `Recv<Ordered>` handler never touches `latests`. -/
theorem vprocessor_on_recv_ordered_latests (ops : ClockOps C)
    (s : VProcessor C) (o : Ordered C) :
    (vprocessor_on_recv_ordered ops s o).1.inner.latests = s.inner.latests := by
  simp only [vprocessor_on_recv_ordered]
  split
  · split
    · rfl
    · exact vcheck_requested_latests ops _
  · exact vcheck_requested_latests ops _

/-- C6: for both mutex processors (plain and verifiable) and every
handled event, each `latests[j]` entry is monotone: whenever it is
replaced, the new value compares `Greater | Equal` to the old value in
the clock's partial order (otherwise it is unchanged). -/
theorem c6_latests_monotone (ops : ClockOps C) :
    (∀ (s : Processor C) (e : PEvent C) (s2 : Processor C),
      processor_step ops s e = Except.ok s2 →
        latests_mono ops s.latests s2.latests) ∧
    (∀ (s : VProcessor C) (e : VEvent C) (s2 : VProcessor C),
      vprocessor_step ops s e = Except.ok s2 →
        latests_mono ops s.inner.latests s2.inner.latests) := by
  constructor
  · intro s e s2 h
    cases e with
    | localRequest =>
      simp only [processor_step] at h
      split at h
      · simp at h
      · rename_i r heq
        simp only [Except.ok.injEq] at h
        subst h
        exact latests_mono_of_eq ops s.latests r.1.latests
          (processor_on_request_latests s r.1 r.2 heq)
    | localRelease =>
      simp only [processor_step] at h
      split at h
      · simp at h
      · rename_i r heq
        simp only [Except.ok.injEq] at h
        subst h
        exact latests_mono_of_eq ops s.latests r.1.latests
          (processor_on_release_latests s r.1 r.2 heq)
    | recv m =>
      simp only [processor_step] at h
      split at h
      · simp at h
      · rename_i r heq
        simp only [Except.ok.injEq] at h
        subst h
        exact processor_on_recv_mono ops s m r heq
  · intro s e s2 h
    cases e with
    | localRequest =>
      simp only [vprocessor_step] at h
      split at h
      · simp at h
      · rename_i r heq
        simp only [Except.ok.injEq] at h
        subst h
        simp only [vprocessor_on_request] at heq
        split at heq
        · simp at heq
        · rename_i inner2 sends heq2
          simp only [Except.ok.injEq] at heq
          subst heq
          exact latests_mono_of_eq ops s.inner.latests inner2.latests
            (processor_on_request_latests s.inner inner2 sends heq2)
    | localRelease =>
      simp only [vprocessor_step] at h
      split at h
      · simp at h
      · rename_i r heq
        simp only [Except.ok.injEq] at h
        subst h
        simp only [vprocessor_on_release] at heq
        split at heq
        · simp at heq
        · rename_i inner2 sends heq2
          simp only [Except.ok.injEq] at heq
          subst heq
          exact latests_mono_of_eq ops s.inner.latests inner2.latests
            (processor_on_release_latests s.inner inner2 sends heq2)
    | recvClocked m =>
      simp only [vprocessor_step] at h
      split at h
      · simp at h
      · rename_i r heq
        simp only [Except.ok.injEq] at h
        subst h
        simp only [vprocessor_on_recv_clocked] at heq
        split at heq
        · simp at heq
        · rename_i inner2 sends warns heq2
          simp only [Except.ok.injEq] at heq
          subst heq
          have hv := vcheck_requested_latests ops
            ⟨s.num_faulty, inner2, s.last_ordered, s.proof⟩
          show latests_mono ops s.inner.latests
            (vcheck_requested ops
              ⟨s.num_faulty, inner2, s.last_ordered, s.proof⟩).1.inner.latests
          rw [hv]
          exact handle_clocked_mono ops (fun _ => MAddr.all) s.inner m inner2
            sends warns heq2
    | recvOrdered o =>
      simp only [vprocessor_step] at h
      simp only [Except.ok.injEq] at h
      subst h
      exact latests_mono_of_eq ops s.inner.latests _
        (vprocessor_on_recv_ordered_latests ops s o)

/-- C6 witness: one concrete plain-processor step in which `latests[1]`
is replaced by a larger clock. -/
theorem c6_witness :
    latests_mono lamportOps [(0, 0), (0, 1)] [(0, 0), (1, 1)] :=
  (c6_latests_monotone lamportOps).1 ⟨0, [(0, 0), (0, 1)], [], false⟩
    (PEvent.recv ⟨(1, 1), Message.requestOk 1⟩) ⟨0, [(0, 0), (1, 1)], [], false⟩
    rfl

/-! ## C8 -/

/-- An address that every table entry differs from is not found by the
connection lookup. -/
theorem assoc_get_eq_none_of_all_bne (l : List (Nat × TcpConnection)) (r : Nat)
    (h : l.all (fun p => p.1 != r) = true) : assoc_get l r = none := by
  unfold assoc_get
  have hf : l.find? (fun p => p.1 == r) = none := by
    rw [List.find?_eq_none]
    intro x hx
    have hne := (List.all_eq_true.mp h) x hx
    simp only [bne_iff_ne, ne_eq] at hne
    simp only [beq_iff_eq]
    exact hne
  rw [hf]
  rfl

/-- C8: an `Outgoing` send to an address not in the connection table
while the table holds its maximum of 1024 entries: if the
least-recently-used entry was used strictly less than 15 seconds ago
the message is dropped with a warning and nothing is evicted or
inserted; if it was used 15 seconds ago or more, exactly that entry is
evicted and a fresh connection for the destination is installed at the
most-recently-used end with the message enqueued on it. -/
theorem c8_saturated_outgoing (B : Type) (buf : B) (now a : Nat)
    (c : TcpConnection) (rest : List (Nat × TcpConnection)) (remote : Nat)
    (hlen : ((a, c) :: rest).length = TCP_MAX_CONNECTION_NUM)
    (habs : ((a, c) :: rest).all (fun p => p.1 != remote) = true) :
    (now - c.used_at < fifteen_secs →
      tcp_on_outgoing ⟨(a, c) :: rest⟩ remote buf now =
        { state := ⟨(a, c) :: rest⟩,
          warnings := ["explicit drop egress message due to reaching maximum concurrent connection number"],
          evicted := [], opened := none, enqueued := none }) ∧
    (fifteen_secs ≤ now - c.used_at →
      tcp_on_outgoing ⟨(a, c) :: rest⟩ remote buf now =
        { state := ⟨rest ++ [(remote, ⟨true, now⟩)]⟩,
          warnings := [], evicted := [a],
          opened := some (remote, buf), enqueued := none }) := by
  have hget : assoc_get ((a, c) :: rest) remote = none :=
    assoc_get_eq_none_of_all_bne _ _ habs
  have hTCP : TCP_MAX_CONNECTION_NUM = 1024 := rfl
  have hrest : rest.length = 1023 := by
    simp only [List.length_cons, hTCP] at hlen
    omega
  have hle1 : TCP_MAX_CONNECTION_NUM ≤ rest.length + 1 := by omega
  have hle2 : ¬ TCP_MAX_CONNECTION_NUM ≤ rest.length := by omega
  constructor
  · intro hlt
    simp only [tcp_on_outgoing]
    rw [hget]
    simp only [tcp_open_new, List.length_cons, tcp_evict_loop]
    simp [hle1, hle2, hlt]
  · intro hge
    have hnlt : ¬ now - c.used_at < fifteen_secs := Nat.not_lt.mpr hge
    simp only [tcp_on_outgoing]
    rw [hget]
    simp only [tcp_open_new, List.length_cons, tcp_evict_loop]
    simp [hle1, hle2, hnlt]

set_option maxRecDepth 40000 in
/-- C8 witness: a full 1024-entry table, all entries last used at
instant 0 and none for address 5000; at instant 20000 (more than 15
seconds later) a send to 5000 evicts the LRU entry 0 and installs the
new connection with the message enqueued. -/
theorem c8_witness :
    tcp_on_outgoing
        ⟨(0, ⟨true, 0⟩) ::
          (List.range 1023).map (fun i => (i + 1, ⟨true, 0⟩))⟩ 5000 37 20000 =
      { state := ⟨(List.range 1023).map (fun i => (i + 1, ⟨true, 0⟩)) ++
            [(5000, ⟨true, 20000⟩)]⟩,
        warnings := [], evicted := [0],
        opened := some (5000, 37), enqueued := none } :=
  (c8_saturated_outgoing Nat 37 20000 0 ⟨true, 0⟩
    ((List.range 1023).map (fun i => (i + 1, ⟨true, 0⟩))) 5000
    (by simp [TCP_MAX_CONNECTION_NUM])
    (by decide)).2 (by decide)
